import Mathlib

/-!
Verification development for `create_license_plate_tf_record.py`.

The program converts PASCAL-VOC style XML annotations plus JPEG images into
sharded serialized records.  We embed the three stages of the pipeline:

* the Lister (in `main`): seeded shuffle of the manifest and a 70/30 split,
* the Converter `dict_to_tf_example`: one parsed annotation to one record,
* the Sharded Writer `create_tf_record`: round-robin writing by index mod
  shard count, with per-example skip on missing XML and on `ValueError`.

External collaborators (the stdlib PRNG, PIL image decoding, the XML parser
and the record serializer) are modelled by their documented input/output
contracts; all control flow and field mapping of the script itself is
translated directly from the source.
-/

/-! ### Model of `random.seed(42)` / `random.shuffle`

The Python stdlib shuffle is an external collaborator.  Its contract: after
`random.seed(c)` the module PRNG state is a function of `c` alone (any
previously accumulated ambient state is discarded), and `random.shuffle`
deterministically permutes the list using successive PRNG draws.  We model
the PRNG state as a `Nat` driven by a 64-bit LCG, and the shuffle as the
classic draw-without-replacement permutation: each step draws an index into
the remaining list, emits that element and removes it. -/

def lcgNext (s : Nat) : Nat :=
  (6364136223846793005 * s + 1442695040888963407) % 18446744073709551616

/-- `random.seed n` : the resulting PRNG state depends only on `n`; the
ambient pre-existing state is discarded. -/
def random_seed (_ambient : Nat) (n : Nat) : Nat := lcgNext n

/-- One pass of the draw-based shuffle; the fuel argument is the list length
and makes the recursion structural. -/
def drawShuffleAux : Nat → Nat → List String → List String
  | 0, _, _ => []
  | _ + 1, _, [] => []
  | fuel + 1, s, a :: rest =>
    let s' := lcgNext s
    let j := s' % (rest.length + 1)
    (a :: rest).getD j a :: drawShuffleAux fuel s' ((a :: rest).eraseIdx j)

/-- `random.shuffle` on a list of example ids, from PRNG state `s`. -/
def random_shuffle (s : Nat) (l : List String) : List String :=
  drawShuffleAux l.length s l

/-! ### Exact model of `int(0.7 * num_examples)`

`0.7 * num_examples` is IEEE-754 double arithmetic.  The double literal
`0.7` is exactly `3152519739159347 / 2 ^ 52`.  For `n < 2 ^ 53` the float
of `n` is exact, so the product is the round-to-nearest-even double of
`3152519739159347 * n / 2 ^ 52`, and `int(...)` truncates it toward zero.
We model this exactly over `Nat`: `roundMantissa a` rounds `a / 2 ^ 52`
to 53 significant bits (returning the numerator over `2 ^ 52`), and
`int_of_float07mul n` is the truncated result.  Note this is NOT always
`⌊7 n / 10⌋`: for example `int(0.7 * 90) = 62` while `⌊63.0⌋ = 63`. -/

/-- Bit length of `n` (the fuel argument makes it structural; `nsize` below
instantiates fuel with `n`, which always suffices). -/
def nbits : Nat → Nat → Nat
  | 0, _ => 0
  | fuel + 1, n => if n = 0 then 0 else nbits fuel (n / 2) + 1

def nsize (n : Nat) : Nat := nbits n n

/-- The exact numerator of the double literal `0.7` over `2 ^ 52`. -/
def float07numerator : Nat := 3152519739159347

/-- Round `a / 2 ^ 52` to the nearest double (53-bit mantissa, ties to
even), returning the resulting numerator over `2 ^ 52`. -/
def roundMantissa (a : Nat) : Nat :=
  if a < 2 ^ 53 then a
  else
    let shift := nsize (a / 2 ^ 53)
    let q := a / 2 ^ shift
    let r := a % 2 ^ shift
    let half := 2 ^ (shift - 1)
    let m := if half < r ∨ (r = half ∧ q % 2 = 1) then q + 1 else q
    m * 2 ^ shift

/-- `int(0.7 * n)` in Python double arithmetic (exact for `n < 2 ^ 53`). -/
def int_of_float07mul (n : Nat) : Nat :=
  roundMantissa (float07numerator * n) / 2 ^ 52

/-! ### The Lister (split logic of `main`)

Source lines 177-182:
```
random.seed(42)
random.shuffle(examples_list)
num_examples = len(examples_list)
num_train = int(0.7 * num_examples)
train_examples = examples_list[:num_train]
val_examples = examples_list[num_train:]
```
`ambient` is the PRNG state of the process before `random.seed(42)` runs. -/
def listerSplit (ambient : Nat) (examples_list : List String) :
    List String × List String :=
  let st := random_seed ambient 42
  let shuffled := random_shuffle st examples_list
  let num_examples := shuffled.length
  let num_train := int_of_float07mul num_examples
  (shuffled.take num_train, shuffled.drop num_train)

/-! ### Lemmas about the shuffle and the split -/

theorem getD_cons_eraseIdx_perm (d : String) :
    ∀ (l : List String) (j : Nat), j < l.length →
      (l.getD j d :: l.eraseIdx j).Perm l := by
  intro l
  induction l with
  | nil => intro j h; simp at h
  | cons a t ih =>
    intro j h
    cases j with
    | zero => simp [List.getD]
    | succ j =>
      have hj : j < t.length := by simpa using h
      have h1 : ((a :: t).getD (j + 1) d :: (a :: t).eraseIdx (j + 1)) =
          (t.getD j d :: a :: t.eraseIdx j) := by
        simp [List.getD]
      rw [h1]
      exact (List.Perm.swap a (t.getD j d) (t.eraseIdx j)).trans
        ((ih j hj).cons a)

theorem drawShuffleAux_perm :
    ∀ (fuel : Nat) (s : Nat) (l : List String), l.length ≤ fuel →
      (drawShuffleAux fuel s l).Perm l := by
  intro fuel
  induction fuel with
  | zero =>
    intro s l h
    have : l = [] := List.length_eq_zero.mp (Nat.le_zero.mp h)
    subst this
    simp [drawShuffleAux]
  | succ fuel ih =>
    intro s l h
    cases l with
    | nil => simp [drawShuffleAux]
    | cons a rest =>
      simp only [drawShuffleAux]
      set j := lcgNext s % (rest.length + 1) with hjdef
      have hj : j < (a :: rest).length := by
        simp only [List.length_cons]
        exact Nat.mod_lt _ (Nat.succ_pos _)
      have hlen : ((a :: rest).eraseIdx j).length = rest.length := by
        rw [List.length_eraseIdx]
        have hj' : j < rest.length + 1 := by simpa using hj
        simp [hj']
      have hrec : (drawShuffleAux fuel (lcgNext s) ((a :: rest).eraseIdx j)).Perm
          ((a :: rest).eraseIdx j) := by
        apply ih
        rw [hlen]
        exact Nat.le_of_succ_le_succ h
      exact (hrec.cons _).trans (getD_cons_eraseIdx_perm a (a :: rest) j hj)

theorem random_shuffle_perm (s : Nat) (l : List String) :
    (random_shuffle s l).Perm l :=
  drawShuffleAux_perm l.length s l le_rfl

theorem nbits_ne_zero (fuel n : Nat) (hf : fuel ≠ 0) (hn : n ≠ 0) :
    nbits fuel n ≠ 0 := by
  cases fuel with
  | zero => exact absurd rfl hf
  | succ fuel => simp [nbits, hn]

theorem nbits_lower :
    ∀ (fuel n : Nat), n ≤ fuel → n ≠ 0 → 2 ^ (nbits fuel n - 1) ≤ n := by
  intro fuel
  induction fuel with
  | zero => intro n h hn; omega
  | succ fuel ih =>
    intro n h hn
    simp only [nbits, hn, if_false]
    by_cases h2 : n / 2 = 0
    · have : nbits fuel (n / 2) = 0 := by
        cases fuel with
        | zero => rfl
        | succ fuel => simp [nbits, h2]
      rw [this]
      simpa using Nat.one_le_iff_ne_zero.mpr hn
    · have hle : n / 2 ≤ fuel := by omega
      have hrec := ih (n / 2) hle h2
      have hpos : nbits fuel (n / 2) ≠ 0 := by
        cases fuel with
        | zero => omega
        | succ fuel => exact nbits_ne_zero _ _ (Nat.succ_ne_zero _) h2
      have hk : nbits fuel (n / 2) - 1 + 1 = nbits fuel (n / 2) := by omega
      have hstep : 2 ^ (nbits fuel (n / 2) + 1 - 1) =
          2 * 2 ^ (nbits fuel (n / 2) - 1) := by
        rw [Nat.add_sub_cancel]
        conv_lhs => rw [← hk]
        rw [pow_succ, Nat.mul_comm]
      rw [hstep]
      calc 2 * 2 ^ (nbits fuel (n / 2) - 1) ≤ 2 * (n / 2) :=
            Nat.mul_le_mul_left 2 hrec
        _ ≤ n := Nat.mul_div_le n 2

theorem nsize_ne_zero (n : Nat) (hn : n ≠ 0) : nsize n ≠ 0 :=
  nbits_ne_zero n n hn hn

theorem nsize_lower (n : Nat) (hn : n ≠ 0) : 2 ^ (nsize n - 1) ≤ n :=
  nbits_lower n n le_rfl hn

theorem roundMantissa_le (a : Nat) : roundMantissa a ≤ a + a / 2 ^ 52 := by
  simp only [roundMantissa]
  split
  · exact Nat.le_add_right _ _
  · rename_i hsmall
    have hage : 2 ^ 53 ≤ a := Nat.le_of_not_lt hsmall
    have htpos : a / 2 ^ 53 ≠ 0 := by
      have : 1 ≤ a / 2 ^ 53 := (Nat.le_div_iff_mul_le (by positivity)).mpr (by omega)
      omega
    set shift := nsize (a / 2 ^ 53) with hs
    have hshiftpos : shift ≠ 0 := nsize_ne_zero _ htpos
    have hlow : 2 ^ (shift - 1) ≤ a / 2 ^ 53 := nsize_lower _ htpos
    have hshift52 : 2 ^ shift * 2 ^ 52 ≤ a := by
      have h1 : 2 ^ (shift - 1) * 2 ^ 53 ≤ a :=
        (Nat.le_div_iff_mul_le (by positivity)).mp hlow
      have h2 : 2 ^ shift * 2 ^ 52 = 2 ^ (shift - 1) * 2 ^ 53 := by
        rw [← pow_add, ← pow_add]
        congr 1
        omega
      omega
    have hshiftle : 2 ^ shift ≤ a / 2 ^ 52 :=
      (Nat.le_div_iff_mul_le (by positivity)).mpr hshift52
    have hqle : a / 2 ^ shift * 2 ^ shift ≤ a := Nat.div_mul_le_self a _
    split
    · have hx : (a / 2 ^ shift + 1) * 2 ^ shift =
          a / 2 ^ shift * 2 ^ shift + 2 ^ shift := by ring
      omega
    · omega

theorem int_of_float07mul_le (n : Nat) : int_of_float07mul n ≤ n := by
  unfold int_of_float07mul
  have h1 : roundMantissa (float07numerator * n) ≤
      float07numerator * n + float07numerator * n / 2 ^ 52 :=
    roundMantissa_le _
  have h2 : float07numerator * n / 2 ^ 52 ≤ n := by
    calc float07numerator * n / 2 ^ 52 ≤ 2 ^ 52 * n / 2 ^ 52 := by
          apply Nat.div_le_div_right
          apply Nat.mul_le_mul_right
          norm_num [float07numerator]
      _ = n := Nat.mul_div_cancel_left n (by positivity)
  have h3 : roundMantissa (float07numerator * n) ≤ (float07numerator + 1) * n := by
    have : float07numerator * n + n = (float07numerator + 1) * n := by ring
    omega
  calc roundMantissa (float07numerator * n) / 2 ^ 52
      ≤ (float07numerator + 1) * n / 2 ^ 52 := Nat.div_le_div_right h3
    _ ≤ 2 ^ 52 * n / 2 ^ 52 := by
        apply Nat.div_le_div_right
        apply Nat.mul_le_mul_right
        norm_num [float07numerator]
    _ = n := Nat.mul_div_cancel_left n (by positivity)

theorem listerSplit_fst_length (amb : Nat) (l : List String) :
    (listerSplit amb l).1.length = int_of_float07mul l.length := by
  simp only [listerSplit, List.length_take]
  rw [(random_shuffle_perm _ l).length_eq]
  exact Nat.min_eq_left (int_of_float07mul_le l.length)

/-! ### Exact model of IEEE-754 double division

Lines 91-94 of the script divide a parsed float coordinate by an integer
dimension in Python double arithmetic:  the result is the
round-to-nearest-even double of the exact quotient, NOT the exact
rational ratio (for instance `10.0 / 100` is the double
`3602879701896397 / 2 ^ 55`, slightly above `1/10`).  We model a double
by its exact rational value and double division `fdiv` exactly, for the
normal range this pipeline exercises: given positive operands, scale the
exact quotient `a / b` by a power of two into `[2 ^ 52, 2 ^ 53)`, round
the scaled value to the nearest integer mantissa (ties to even), and
scale back.  Python raises `ZeroDivisionError` for a zero divisor (the
script would crash on `width = 0`); the model returns 0 there and no
claim relies on it.  Subnormal underflow and overflow to infinity are
outside the coordinate magnitudes the pipeline handles. -/

/-- Round `p / d` to the nearest integer, ties to even. -/
def roundNearEven (p d : Nat) : Nat :=
  p / d + (if d < 2 * (p % d) ∨ (2 * (p % d) = d ∧ p / d % 2 = 1)
    then 1 else 0)

/-- Scale the positive quotient `a / b` into the mantissa range: returns
`(p, d, t)` with `p / d = (a / b) * 2 ^ t` and `2 ^ 52 * d ≤ p < 2 ^ 53 * d`
(for positive inputs). -/
def fdivScaled (a b : Nat) : Nat × Nat × Int :=
  let t0 : Int := 52 + (nsize b : Int) - (nsize a : Int)
  let p0 := if 0 ≤ t0 then a * 2 ^ t0.toNat else a
  let d0 := if 0 ≤ t0 then b else b * 2 ^ (-t0).toNat
  if p0 < 2 ^ 52 * d0 then (2 * p0, d0, t0 + 1) else (p0, d0, t0)

/-- The rounded double of the positive quotient `a / b`. -/
def fdivPos (a b : Nat) : ℚ :=
  let s := fdivScaled a b
  let m := roundNearEven s.1 s.2.1
  if 0 ≤ s.2.2 then (m : ℚ) / ((2 ^ s.2.2.toNat : ℕ) : ℚ)
  else (m : ℚ) * ((2 ^ (-s.2.2).toNat : ℕ) : ℚ)

/-- IEEE-754 double division of the exact values `x / w` (round to
nearest, ties to even); 0 for a zero operand (see the section comment). -/
def fdiv (x w : ℚ) : ℚ :=
  if x = 0 ∨ w = 0 then 0
  else
    let mag := fdivPos (x.num.natAbs * w.den) (x.den * w.num.natAbs)
    if (0 < x.num ∧ 0 < w.num) ∨ (x.num < 0 ∧ w.num < 0) then mag else -mag

theorem nbits_upper : ∀ (fuel n : Nat), n ≤ fuel → n < 2 ^ nbits fuel n := by
  intro fuel
  induction fuel with
  | zero =>
    intro n h
    simp only [nbits]
    omega
  | succ fuel ih =>
    intro n h
    by_cases hn : n = 0
    · subst hn
      simp [nbits]
    · simp only [nbits, hn, if_false]
      have hrec := ih (n / 2) (by omega)
      rw [pow_succ]
      omega

theorem nsize_upper (n : Nat) : n < 2 ^ nsize n := nbits_upper n n le_rfl

theorem fdivScaled_bounds (a b : Nat) (ha : 0 < a) (hb : 0 < b)
    (p d : Nat) (t : Int) (h : fdivScaled a b = (p, d, t)) :
    0 < d ∧ 2 ^ 52 * d ≤ p ∧ (b < a → t ≤ 52) := by
  have hLa : 2 ^ (nsize a - 1) ≤ a := nsize_lower a (by omega)
  have hUa : a < 2 ^ nsize a := nsize_upper a
  have hLb : 2 ^ (nsize b - 1) ≤ b := nsize_lower b (by omega)
  have hUb : b < 2 ^ nsize b := nsize_upper b
  have hDL : b < a → nsize b ≤ nsize a := by
    intro hba
    by_contra hc
    push_neg at hc
    have h2 : (2 : ℕ) ^ nsize a ≤ 2 ^ (nsize b - 1) :=
      Nat.pow_le_pow_right (by norm_num) (by omega)
    omega
  simp only [fdivScaled] at h
  by_cases ht0 : (0 : Int) ≤ 52 + (nsize b : Int) - (nsize a : Int)
  · have hk : (52 + (nsize b : Int) - (nsize a : Int)).toNat
        = 52 + nsize b - nsize a := by omega
    have hLle : nsize a ≤ 52 + nsize b := by omega
    simp only [ht0, if_true, hk] at h
    have hpre : 2 ^ 51 * b < a * 2 ^ (52 + nsize b - nsize a) := by
      have h1 : 2 ^ 51 * b < 2 ^ 51 * 2 ^ nsize b :=
        (mul_lt_mul_left (by positivity)).mpr hUb
      have h2 : (2 : ℕ) ^ 51 * 2 ^ nsize b
          ≤ 2 ^ (nsize a - 1) * 2 ^ (52 + nsize b - nsize a) := by
        rw [← pow_add, ← pow_add]
        apply Nat.pow_le_pow_right (by norm_num)
        omega
      have h3 : 2 ^ (nsize a - 1) * 2 ^ (52 + nsize b - nsize a)
          ≤ a * 2 ^ (52 + nsize b - nsize a) :=
        Nat.mul_le_mul_right _ hLa
      omega
    by_cases hsh : a * 2 ^ (52 + nsize b - nsize a) < 2 ^ 52 * b
    · simp only [hsh, if_true, Prod.mk.injEq] at h
      obtain ⟨hp, hd, ht⟩ := h
      subst hp
      subst hd
      subst ht
      refine ⟨hb, ?_, ?_⟩
      · have he : (2 : ℕ) ^ 52 * b = 2 * (2 ^ 51 * b) := by ring
        omega
      · intro hba
        have hDLa := hDL hba
        have hne : nsize b ≠ nsize a := by
          intro he
          rw [he, Nat.add_sub_cancel] at hsh
          rw [Nat.mul_comm] at hsh
          have : a < b :=
            (mul_lt_mul_left (by positivity : (0 : ℕ) < 2 ^ 52)).mp hsh
          omega
        omega
    · simp only [hsh, if_false, Prod.mk.injEq] at h
      obtain ⟨hp, hd, ht⟩ := h
      subst hp
      subst hd
      subst ht
      exact ⟨hb, Nat.le_of_not_lt hsh, fun hba => by have := hDL hba; omega⟩
  · have hk : ((-(52 + (nsize b : Int) - (nsize a : Int))).toNat)
        = nsize a - nsize b - 52 := by omega
    have hLgt : 52 + nsize b < nsize a := by omega
    simp only [ht0, if_false, hk] at h
    have hpre : 2 ^ 51 * (b * 2 ^ (nsize a - nsize b - 52)) < a := by
      have h1 : 2 ^ 51 * (b * 2 ^ (nsize a - nsize b - 52))
          < 2 ^ 51 * (2 ^ nsize b * 2 ^ (nsize a - nsize b - 52)) := by
        apply (mul_lt_mul_left (by positivity)).mpr
        exact (mul_lt_mul_right (by positivity)).mpr hUb
      have h2 : (2 : ℕ) ^ 51 * (2 ^ nsize b * 2 ^ (nsize a - nsize b - 52))
          = 2 ^ (nsize a - 1) := by
        rw [← pow_add, ← pow_add]
        congr 1
        omega
      omega
    by_cases hsh : a < 2 ^ 52 * (b * 2 ^ (nsize a - nsize b - 52))
    · simp only [hsh, if_true, Prod.mk.injEq] at h
      obtain ⟨hp, hd, ht⟩ := h
      subst hp
      subst hd
      subst ht
      refine ⟨by positivity, ?_, fun _ => by omega⟩
      have he : (2 : ℕ) ^ 52 * (b * 2 ^ (nsize a - nsize b - 52))
          = 2 * (2 ^ 51 * (b * 2 ^ (nsize a - nsize b - 52))) := by ring
      omega
    · simp only [hsh, if_false, Prod.mk.injEq] at h
      obtain ⟨hp, hd, ht⟩ := h
      subst hp
      subst hd
      subst ht
      exact ⟨by positivity, Nat.le_of_not_lt hsh, fun _ => by omega⟩

theorem fdivPos_ge_one (a b : Nat) (hb : 0 < b) (hab : b < a) :
    1 ≤ fdivPos a b := by
  rcases hs : fdivScaled a b with ⟨p, d, t⟩
  obtain ⟨hd, hp, ht52⟩ := fdivScaled_bounds a b (by omega) hb p d t hs
  have ht : t ≤ 52 := ht52 hab
  have hm : 2 ^ 52 ≤ roundNearEven p d := by
    have hfl : 2 ^ 52 ≤ p / d := (Nat.le_div_iff_mul_le hd).mpr (by
      calc 2 ^ 52 * d = 2 ^ 52 * d := rfl
        _ ≤ p := hp)
    exact le_trans hfl (Nat.le_add_right _ _)
  simp only [fdivPos, hs]
  by_cases htpos : (0 : Int) ≤ t
  · simp only [htpos, if_true]
    have hden : ((2 ^ t.toNat : ℕ) : ℚ) ≤ ((2 ^ 52 : ℕ) : ℚ) := by
      exact_mod_cast Nat.pow_le_pow_right (by norm_num) (by omega)
    have hnum : ((2 ^ 52 : ℕ) : ℚ) ≤ (roundNearEven p d : ℚ) := by
      exact_mod_cast hm
    have hdpos : (0 : ℚ) < ((2 ^ t.toNat : ℕ) : ℚ) := by positivity
    rw [le_div_iff₀ hdpos]
    calc (1 : ℚ) * ((2 ^ t.toNat : ℕ) : ℚ) = ((2 ^ t.toNat : ℕ) : ℚ) := by
          ring
      _ ≤ ((2 ^ 52 : ℕ) : ℚ) := hden
      _ ≤ (roundNearEven p d : ℚ) := hnum
  · simp only [htpos, if_false]
    have h1 : (1 : ℚ) ≤ (roundNearEven p d : ℚ) := by
      exact_mod_cast le_trans (by norm_num : (1 : ℕ) ≤ 2 ^ 52) hm
    have h2 : (1 : ℚ) ≤ ((2 ^ (-t).toNat : ℕ) : ℚ) := by
      exact_mod_cast Nat.one_le_two_pow
    calc (1 : ℚ) = 1 * 1 := by ring
      _ ≤ (roundNearEven p d : ℚ) * ((2 ^ (-t).toNat : ℕ) : ℚ) :=
        mul_le_mul h1 h2 (by norm_num) (le_trans (by norm_num) h1)

theorem fdiv_ge_one (x w : ℚ) (hw : 0 < w) (hxw : w < x) : 1 ≤ fdiv x w := by
  have hx : 0 < x := lt_trans hw hxw
  have hxnum : 0 < x.num := Rat.num_pos.mpr hx
  have hwnum : 0 < w.num := Rat.num_pos.mpr hw
  have hx0 : ¬(x = 0 ∨ w = 0) := by
    push_neg
    exact ⟨ne_of_gt hx, ne_of_gt hw⟩
  have hsign : (0 < x.num ∧ 0 < w.num) ∨ (x.num < 0 ∧ w.num < 0) :=
    Or.inl ⟨hxnum, hwnum⟩
  simp only [fdiv, hx0, if_false, hsign, if_true]
  apply fdivPos_ge_one
  · have := w.den_pos
    have : w.num.natAbs ≠ 0 := by omega
    have := x.den_pos
    positivity
  · have hlt := Rat.lt_def.mp hxw
    zify
    rw [abs_of_pos hwnum, abs_of_pos hxnum]
    calc (x.den : Int) * w.num = w.num * x.den := by ring
      _ < x.num * w.den := hlt

/-! ### Data model of the Converter `dict_to_tf_example`

The XML-derived dict holds, per the PASCAL-VOC schema: `filename`,
`size.width` / `size.height` (read through `int(...)`), and an optional
ordered list of object entries, each with `name` (never read by this
script), `pose`, `truncated`, `difficult` (read through `int(...)`) and a
`bndbox` whose four coordinates are read through `float(...)`; we model
the parsed float values as rationals. -/

structure BndBox where
  xmin : ℚ
  ymin : ℚ
  xmax : ℚ
  ymax : ℚ
  deriving DecidableEq

structure ObjectEntry where
  name : String
  pose : String
  truncated : Int
  difficult : Int
  bndbox : BndBox
  deriving DecidableEq

structure SizeField where
  width : Int
  height : Int
  deriving DecidableEq

structure AnnotationData where
  filename : String
  size : SizeField
  object : Option (List ObjectEntry)
  deriving DecidableEq

/-- An image file on disk: its raw bytes, and whether `PIL.Image.open`
can identify them as an image. -/
structure ImageFile where
  bytes : String
  decodable : Bool
  deriving DecidableEq

/-- The Python exception kinds relevant to this pipeline.
`PIL.Image.open` raises `PIL.UnidentifiedImageError`, a subclass of
`OSError` and NOT of `ValueError`, when the bytes cannot be identified
as an image (documented PIL behaviour); a missing file raises a
not-found error from the file reader. -/
inductive PyErr where
  | valueError
  | unidentifiedImageError
  | notFoundError
  deriving DecidableEq

deriving instance DecidableEq for Except

/-- The flat record assembled from `feature_dict` (lines 99-114).  Only
the keys that are actually placed in `feature_dict` appear: the
`truncated`, `poses` and `difficult_obj` lists built by the loop are
dropped. -/
structure TfExample where
  height : Int
  width : Int
  filename : String
  source_id : String
  encoded : String
  format : String
  xmins : List ℚ
  xmaxs : List ℚ
  ymins : List ℚ
  ymaxs : List ℚ
  classes_text : List String
  classes : List Int
  deriving DecidableEq

/-- The nine accumulator lists built by the per-object loop
(lines 70-97). -/
structure ObjLists where
  xmins : List ℚ
  ymins : List ℚ
  xmaxs : List ℚ
  ymaxs : List ℚ
  classes : List Int
  classes_text : List String
  truncated : List Int
  poses : List String
  difficult_obj : List Int
  deriving DecidableEq

/-- The per-object loop of `dict_to_tf_example` (lines 79-97): skip the
entry when `ignore_difficult_instances` is set and the entry is
difficult, otherwise append the four normalized coordinates — each the
IEEE double division `fdiv` of the coordinate by the dimension (the int
dimension converts to double exactly for magnitudes below `2 ^ 53`) —
the label map value of the hardcoded key "LicensePlate", and the
(ultimately unused) truncated / pose / difficult values.  `classes_text`
is never appended to. -/
def processObjects (ignore_difficult_instances : Bool)
    (label_map_dict : String → Int) (width height : Int) :
    List ObjectEntry → ObjLists
  | [] => ⟨[], [], [], [], [], [], [], [], []⟩
  | obj :: rest =>
    if ignore_difficult_instances && (obj.difficult != 0) then
      processObjects ignore_difficult_instances label_map_dict width height rest
    else
      let tail := processObjects ignore_difficult_instances label_map_dict width height rest
      { xmins := fdiv obj.bndbox.xmin (width : ℚ) :: tail.xmins
        ymins := fdiv obj.bndbox.ymin (height : ℚ) :: tail.ymins
        xmaxs := fdiv obj.bndbox.xmax (width : ℚ) :: tail.xmaxs
        ymaxs := fdiv obj.bndbox.ymax (height : ℚ) :: tail.ymaxs
        classes := label_map_dict "LicensePlate" :: tail.classes
        classes_text := tail.classes_text
        truncated := obj.truncated :: tail.truncated
        poses := obj.pose :: tail.poses
        difficult_obj := (if obj.difficult != 0 then (1 : Int) else 0) :: tail.difficult_obj }

/-- The object entries the loop does not skip. -/
def retainedObjects (ignore_difficult_instances : Bool)
    (objs : List ObjectEntry) : List ObjectEntry :=
  objs.filter (fun obj => !(ignore_difficult_instances && (obj.difficult != 0)))

/-- `data['object']` when present, else no entries (the `if 'object' in
data` guard of line 79). -/
def AnnotationData.objectList (data : AnnotationData) : List ObjectEntry :=
  data.object.getD []

/-- The Converter (lines 36-117).  `images` maps a path to the image file
stored there, if any.  Reading a missing image file fails with a
not-found error; bytes that PIL cannot identify fail with
`unidentifiedImageError` (see `PyErr`).  The script itself contains no
`raise ValueError` (its docstring still advertises one, but the
`image.format != JPEG` check that raised it in the sibling PASCAL script
is absent here: line 65 is blank and the `image` object is never used). -/
def dict_to_tf_example (images : String → Option ImageFile)
    (data : AnnotationData) (label_map_dict : String → Int)
    (image_subdirectory : String)
    (ignore_difficult_instances : Bool := false) : Except PyErr TfExample :=
  let img_path := image_subdirectory ++ "/" ++ data.filename
  match images img_path with
  | none => Except.error PyErr.notFoundError
  | some img =>
    if img.decodable then
      let width := data.size.width
      let height := data.size.height
      let acc := processObjects ignore_difficult_instances label_map_dict
        width height data.objectList
      Except.ok
        { height := height
          width := width
          filename := data.filename
          source_id := data.filename
          encoded := img.bytes
          format := "jpeg"
          xmins := acc.xmins
          xmaxs := acc.xmaxs
          ymins := acc.ymins
          ymaxs := acc.ymaxs
          classes_text := acc.classes_text
          classes := acc.classes }
    else Except.error PyErr.unidentifiedImageError

/-! ### Lemmas about the per-object loop -/

theorem processObjects_eq (ign : Bool) (lm : String → Int) (w h : Int)
    (objs : List ObjectEntry) :
    (processObjects ign lm w h objs).xmins
        = (retainedObjects ign objs).map (fun o => fdiv o.bndbox.xmin (w : ℚ)) ∧
    (processObjects ign lm w h objs).ymins
        = (retainedObjects ign objs).map (fun o => fdiv o.bndbox.ymin (h : ℚ)) ∧
    (processObjects ign lm w h objs).xmaxs
        = (retainedObjects ign objs).map (fun o => fdiv o.bndbox.xmax (w : ℚ)) ∧
    (processObjects ign lm w h objs).ymaxs
        = (retainedObjects ign objs).map (fun o => fdiv o.bndbox.ymax (h : ℚ)) ∧
    (processObjects ign lm w h objs).classes
        = (retainedObjects ign objs).map (fun _ => lm "LicensePlate") ∧
    (processObjects ign lm w h objs).classes_text = [] := by
  induction objs with
  | nil => simp [processObjects, retainedObjects]
  | cons obj rest ih =>
    obtain ⟨ih1, ih2, ih3, ih4, ih5, ih6⟩ := ih
    by_cases hskip : ign && (obj.difficult != 0)
    · simp only [processObjects, hskip, if_true, retainedObjects,
        List.filter_cons, Bool.not_eq_true'] at ih1 ih2 ih3 ih4 ih5 ih6 ⊢
      simp [hskip, retainedObjects] at ih1 ih2 ih3 ih4 ih5 ih6 ⊢
      exact ⟨ih1, ih2, ih3, ih4, ih5, ih6⟩
    · simp only [processObjects, hskip, if_false, retainedObjects,
        List.filter_cons] at ih1 ih2 ih3 ih4 ih5 ih6 ⊢
      simp [hskip, retainedObjects, List.filter_cons] at ih1 ih2 ih3 ih4 ih5 ih6 ⊢
      exact ⟨ih1, ih2, ih3, ih4, ih5, ih6⟩

/-! ### The Sharded Writer `create_tf_record` (lines 120-162)

The file system is modelled by `FsEnv`: `xmlData` maps an XML path to the
parsed `AnnotationData` stored there (`none` when `os.path.exists` is
false; a present-but-malformed XML file, whose parse error the script
does not catch, is outside this model), and `images` maps an image path
to the image file stored there.  Shard files are the lists of records
written to them, in write order; serialization (`SerializeToString`) is
an external injective encoder and is modelled as the identity on records.
`if tf_example:` on line 158 is always true (protobuf messages define no
falsiness), so a successfully converted record is always written.  The
`except ValueError` clause catches exactly `valueError`; every other
exception propagates and aborts the run. -/

structure FsEnv where
  xmlData : String → Option AnnotationData
  images : String → Option ImageFile

/-- Append a record to shard `i` (`output_tfrecords[shard_idx].write`). -/
def appendToShard (shards : List (List TfExample)) (i : Nat)
    (r : TfExample) : List (List TfExample) :=
  shards.set i (shards.getD i [] ++ [r])

/-- The body of the `for idx, example in enumerate(examples)` loop for one
example (lines 142-162). -/
def writeStep (env : FsEnv) (num_shards : Nat) (label_map_dict : String → Int)
    (annotations_dir image_dir : String) (shards : List (List TfExample))
    (idx : Nat) (ex_id : String) : Except PyErr (List (List TfExample)) :=
  let xml_path := annotations_dir ++ "/" ++ ex_id ++ ".xml"
  match env.xmlData xml_path with
  | none => Except.ok shards
  | some data =>
    match dict_to_tf_example env.images data label_map_dict image_dir with
    | Except.ok tf_example =>
        Except.ok (appendToShard shards (idx % num_shards) tf_example)
    | Except.error e =>
        if e = PyErr.valueError then Except.ok shards else Except.error e

/-- The writer loop over the example list, threading the shard files. -/
def writeLoop (env : FsEnv) (num_shards : Nat) (label_map_dict : String → Int)
    (annotations_dir image_dir : String) (shards : List (List TfExample))
    (idx : Nat) : List String → Except PyErr (List (List TfExample))
  | [] => Except.ok shards
  | ex_id :: rest =>
    match writeStep env num_shards label_map_dict annotations_dir image_dir
        shards idx ex_id with
    | Except.ok shards' =>
        writeLoop env num_shards label_map_dict annotations_dir image_dir
          shards' (idx + 1) rest
    | Except.error e => Except.error e

/-- `create_tf_record`: open `num_shards` empty shard files, then run the
loop from index 0.  The output filename only names the shard files and is
handled by the external sharded-writer utility, so it is not a parameter
of the model. -/
def create_tf_record (env : FsEnv) (num_shards : Nat)
    (label_map_dict : String → Int) (annotations_dir image_dir : String)
    (examples : List String) : Except PyErr (List (List TfExample)) :=
  writeLoop env num_shards label_map_dict annotations_dir image_dir
    (List.replicate num_shards []) 0 examples

/-- The record the writer obtains for one example id: `none` when the XML
file is absent (skip) or the Converter fails with `valueError` (skip),
`some` the converted record otherwise. -/
def recordOf (env : FsEnv) (label_map_dict : String → Int)
    (annotations_dir image_dir : String) (ex_id : String) :
    Option TfExample :=
  match env.xmlData (annotations_dir ++ "/" ++ ex_id ++ ".xml") with
  | none => none
  | some data =>
    (dict_to_tf_example env.images data label_map_dict image_dir).toOption

/-! ### Characterization of the shard contents -/

theorem appendToShard_getD (shards : List (List TfExample)) (i : Nat)
    (r : TfExample) (s : Nat) (hi : i < shards.length) :
    (appendToShard shards i r).getD s []
      = shards.getD s [] ++ (if i = s then [r] else []) := by
  by_cases his : i = s
  · subst his
    simp [appendToShard, List.getD, List.getElem?_set_self, hi]
  · simp [appendToShard, List.getD, List.getElem?_set_ne his, his]

theorem writeLoop_ok_shards (env : FsEnv) (num_shards : Nat)
    (label_map_dict : String → Int) (annotations_dir image_dir : String) :
    ∀ (examples : List String) (shards : List (List TfExample)) (idx : Nat)
      (final : List (List TfExample)),
      shards.length = num_shards →
      writeLoop env num_shards label_map_dict annotations_dir image_dir
          shards idx examples = Except.ok final →
      final.length = num_shards ∧
      ∀ s, s < num_shards →
        final.getD s [] = shards.getD s [] ++
          ((examples.enumFrom idx).filterMap fun p =>
            if p.1 % num_shards = s
            then recordOf env label_map_dict annotations_dir image_dir p.2
            else none) := by
  intro examples
  induction examples with
  | nil =>
    intro shards idx final hlen hrun
    simp only [writeLoop] at hrun
    cases hrun
    simpa using hlen
  | cons ex_id rest ih =>
    intro shards idx final hlen hrun
    simp only [writeLoop] at hrun
    rcases hxml : env.xmlData (annotations_dir ++ "/" ++ ex_id ++ ".xml")
      with _ | data
    · have hstep : writeStep env num_shards label_map_dict annotations_dir
          image_dir shards idx ex_id = Except.ok shards := by
        simp [writeStep, hxml]
      simp only [hstep] at hrun
      obtain ⟨h1, h2⟩ := ih shards (idx + 1) final hlen hrun
      refine ⟨h1, fun s hs => ?_⟩
      rw [h2 s hs]
      have hro : recordOf env label_map_dict annotations_dir image_dir ex_id
          = none := by
        simp [recordOf, hxml]
      simp [List.enumFrom, hro, List.filterMap_cons]
    · rcases hconv : dict_to_tf_example env.images data label_map_dict image_dir
        with e | ex
      · -- the Converter failed
        by_cases he : e = PyErr.valueError
        · subst he
          have hstep : writeStep env num_shards label_map_dict annotations_dir
              image_dir shards idx ex_id = Except.ok shards := by
            simp [writeStep, hxml, hconv]
          simp only [hstep] at hrun
          obtain ⟨h1, h2⟩ := ih shards (idx + 1) final hlen hrun
          refine ⟨h1, fun s hs => ?_⟩
          rw [h2 s hs]
          have hro : recordOf env label_map_dict annotations_dir image_dir
              ex_id = none := by
            simp [recordOf, hxml, hconv, Except.toOption]
          simp [List.enumFrom, hro, List.filterMap_cons]
        · have hstep : writeStep env num_shards label_map_dict annotations_dir
              image_dir shards idx ex_id = Except.error e := by
            simp [writeStep, hxml, hconv, he]
          simp only [hstep] at hrun
          cases hrun
      · -- successful conversion: append to shard `idx % num_shards`
        have hstep : writeStep env num_shards label_map_dict annotations_dir
            image_dir shards idx ex_id
            = Except.ok (appendToShard shards (idx % num_shards) ex) := by
          simp [writeStep, hxml, hconv]
        simp only [hstep] at hrun
        have hlen' : (appendToShard shards (idx % num_shards) ex).length
            = num_shards := by
          simp [appendToShard, hlen]
        obtain ⟨h1, h2⟩ := ih _ (idx + 1) final hlen' hrun
        refine ⟨h1, fun s hs => ?_⟩
        rw [h2 s hs]
        have hpos : 0 < num_shards := Nat.pos_of_ne_zero (by omega)
        have hi : idx % num_shards < shards.length := by
          rw [hlen]
          exact Nat.mod_lt idx hpos
        rw [appendToShard_getD shards (idx % num_shards) ex s hi]
        have hro : recordOf env label_map_dict annotations_dir image_dir
            ex_id = some ex := by
          simp [recordOf, hxml, hconv, Except.toOption]
        by_cases hsel : idx % num_shards = s
        · simp [List.enumFrom, List.filterMap_cons, hsel, hro]
        · simp [List.enumFrom, List.filterMap_cons, hsel, hro]

/-! ### Claims about the Lister -/

/-- C1 (amended): for a manifest of fewer than `2 ^ 53` DISTINCT example
ids, the Lister produces a training list whose size is `int(0.7 * N)` as
computed in IEEE double arithmetic (not always `⌊0.7 N⌋`, see the
counterexample), the two list sizes sum to `N`, the lists are disjoint,
and every manifest example appears in exactly one of them. -/
theorem C1_lister_split (amb : Nat) (l : List String)
    (hsz : l.length < 2 ^ 53) (hnd : l.Nodup) :
    (listerSplit amb l).1.length = int_of_float07mul l.length ∧
    (listerSplit amb l).1.length + (listerSplit amb l).2.length = l.length ∧
    List.Disjoint (listerSplit amb l).1 (listerSplit amb l).2 ∧
    ∀ x ∈ l,
      (x ∈ (listerSplit amb l).1 ∧ x ∉ (listerSplit amb l).2) ∨
      (x ∈ (listerSplit amb l).2 ∧ x ∉ (listerSplit amb l).1) := by
  have hperm := random_shuffle_perm (random_seed amb 42) l
  have hlen : (random_shuffle (random_seed amb 42) l).length = l.length :=
    hperm.length_eq
  have hk : int_of_float07mul l.length ≤ l.length := int_of_float07mul_le _
  have hnd' : (random_shuffle (random_seed amb 42) l).Nodup :=
    hperm.nodup_iff.mpr hnd
  have hdisj : List.Disjoint (listerSplit amb l).1 (listerSplit amb l).2 := by
    simp only [listerSplit]
    exact List.disjoint_take_drop hnd' le_rfl
  refine ⟨listerSplit_fst_length amb l, ?_, hdisj, ?_⟩
  · simp only [listerSplit, List.length_take, List.length_drop, hlen]
    omega
  · intro x hx
    have hx' : x ∈ random_shuffle (random_seed amb 42) l := hperm.mem_iff.mpr hx
    simp only [listerSplit] at hdisj ⊢
    rw [← List.take_append_drop
      (int_of_float07mul (random_shuffle (random_seed amb 42) l).length)
      (random_shuffle (random_seed amb 42) l)] at hx'
    rcases List.mem_append.mp hx' with h1 | h1
    · exact Or.inl ⟨h1, fun h2 => hdisj h1 h2⟩
    · exact Or.inr ⟨h1, fun h2 => hdisj h2 h1⟩

/-- C1 counterexample: the claim as stated fails on the code in two ways.
With a manifest of 90 ids the training list has 62 elements, not
`⌊0.7 × 90⌋ = 63` (double arithmetic: `0.7 * 90 == 62.99999999999999`);
and with the duplicate manifest `["a", "a"]` the two output lists both
contain "a", so they are not disjoint and "a" does not appear in exactly
one of them. -/
theorem C1_counterexample :
    (listerSplit 0 (List.replicate 90 "x")).1.length
        ≠ 7 * (List.replicate 90 "x").length / 10 ∧
    ¬ List.Disjoint (listerSplit 0 ["a", "a"]).1 (listerSplit 0 ["a", "a"]).2 := by
  constructor
  · rw [listerSplit_fst_length]
    simp only [List.length_replicate]
    decide
  · intro hd
    have h1 : "a" ∈ (listerSplit 0 ["a", "a"]).1 := by decide
    have h2 : "a" ∈ (listerSplit 0 ["a", "a"]).2 := by decide
    exact hd h1 h2

/-- C1 witness: the amended theorem instantiated at the three-element
manifest `["a", "b", "c"]`. -/
theorem C1_lister_split_witness :
    (["a", "b", "c"] : List String).length < 2 ^ 53 ∧
    (["a", "b", "c"] : List String).Nodup ∧
    ((listerSplit 0 ["a", "b", "c"]).1.length
        = int_of_float07mul (["a", "b", "c"] : List String).length ∧
      (listerSplit 0 ["a", "b", "c"]).1.length
          + (listerSplit 0 ["a", "b", "c"]).2.length
          = (["a", "b", "c"] : List String).length ∧
      List.Disjoint (listerSplit 0 ["a", "b", "c"]).1
        (listerSplit 0 ["a", "b", "c"]).2 ∧
      ∀ x ∈ (["a", "b", "c"] : List String),
        (x ∈ (listerSplit 0 ["a", "b", "c"]).1 ∧
          x ∉ (listerSplit 0 ["a", "b", "c"]).2) ∨
        (x ∈ (listerSplit 0 ["a", "b", "c"]).2 ∧
          x ∉ (listerSplit 0 ["a", "b", "c"]).1)) :=
  ⟨by decide, by decide, C1_lister_split 0 ["a", "b", "c"] (by decide) (by decide)⟩

/-- C8: the split is seeded with the fixed value 42 immediately before
shuffling, so it is a deterministic function of the manifest contents:
whatever the ambient PRNG states of two runs, identical manifests give
identical train and validation lists (membership and order). -/
theorem C8_deterministic_split (s1 s2 : Nat) (m1 m2 : List String)
    (h : m1 = m2) : listerSplit s1 m1 = listerSplit s2 m2 := by
  subst h
  rfl

/-- C8 witness: two runs with different ambient PRNG states on the same
two-element manifest produce the same split. -/
theorem C8_deterministic_split_witness :
    (["p", "q"] : List String) = ["p", "q"] ∧
    listerSplit 0 ["p", "q"] = listerSplit 987654321 ["p", "q"] :=
  ⟨rfl, C8_deterministic_split 0 987654321 ["p", "q"] ["p", "q"] rfl⟩

/-! ### Claims about the Converter -/

theorem dict_to_tf_example_ok (images : String → Option ImageFile)
    (data : AnnotationData) (lm : String → Int) (dir : String) (ign : Bool)
    (ex : TfExample)
    (h : dict_to_tf_example images data lm dir ign = Except.ok ex) :
    ∃ img, images (dir ++ "/" ++ data.filename) = some img ∧
      img.decodable = true ∧
      ex = { height := data.size.height
             width := data.size.width
             filename := data.filename
             source_id := data.filename
             encoded := img.bytes
             format := "jpeg"
             xmins := (processObjects ign lm data.size.width data.size.height
               data.objectList).xmins
             xmaxs := (processObjects ign lm data.size.width data.size.height
               data.objectList).xmaxs
             ymins := (processObjects ign lm data.size.width data.size.height
               data.objectList).ymins
             ymaxs := (processObjects ign lm data.size.width data.size.height
               data.objectList).ymaxs
             classes_text := (processObjects ign lm data.size.width
               data.size.height data.objectList).classes_text
             classes := (processObjects ign lm data.size.width data.size.height
               data.objectList).classes } := by
  simp only [dict_to_tf_example] at h
  rcases himg : images (dir ++ "/" ++ data.filename) with _ | img
  · rw [himg] at h
    cases h
  · rw [himg] at h
    by_cases hdec : img.decodable = true
    · refine ⟨img, rfl, hdec, ?_⟩
      simp only [hdec, if_true] at h
      cases h
      rfl
    · simp only [Bool.not_eq_true] at hdec
      simp [hdec] at h

/-- Evaluation of the double divisions used by the concrete inputs
below (each proved from the definition of `fdiv`). -/
theorem fdiv_eval_50_200 : fdiv (50 : ℚ) 200 = 1 / 4 := by
  have htn : (54 : Int).toNat = 54 := rfl
  have h1 : nsize 50 = 6 := by decide
  have h2 : nsize 200 = 8 := by decide
  have h3 : fdivScaled 50 200 = (900719925474099200, 200, 54) := by
    simp only [fdivScaled, h1, h2]
    norm_num [htn]
  norm_num [fdiv, fdivPos, h3, roundNearEven, htn]

theorem fdiv_eval_250_200 : fdiv (250 : ℚ) 200 = 5 / 4 := by
  have htn : (52 : Int).toNat = 52 := rfl
  have h1 : nsize 250 = 8 := by decide
  have h2 : nsize 200 = 8 := by decide
  have h3 : fdivScaled 250 200 = (1125899906842624000, 200, 52) := by
    simp only [fdivScaled, h1, h2]
    norm_num [htn]
  norm_num [fdiv, fdivPos, h3, roundNearEven, htn]

theorem fdiv_eval_16_128 : fdiv (16 : ℚ) 128 = 1 / 8 := by
  have htn : (55 : Int).toNat = 55 := rfl
  have h1 : nsize 16 = 5 := by decide
  have h2 : nsize 128 = 8 := by decide
  have h3 : fdivScaled 16 128 = (576460752303423488, 128, 55) := by
    simp only [fdivScaled, h1, h2]
    norm_num [htn]
  norm_num [fdiv, fdivPos, h3, roundNearEven, htn]

theorem fdiv_eval_96_128 : fdiv (96 : ℚ) 128 = 3 / 4 := by
  have htn : (53 : Int).toNat = 53 := rfl
  have h1 : nsize 96 = 7 := by decide
  have h2 : nsize 128 = 8 := by decide
  have h3 : fdivScaled 96 128 = (864691128455135232, 128, 53) := by
    simp only [fdivScaled, h1, h2]
    norm_num [htn]
  norm_num [fdiv, fdivPos, h3, roundNearEven, htn]

theorem fdiv_eval_10_100 :
    fdiv (10 : ℚ) 100 = 3602879701896397 / 36028797018963968 := by
  have htn : (56 : Int).toNat = 56 := rfl
  have htn2 : (55 : Int).toNat = 55 := rfl
  have h1 : nsize 10 = 4 := by decide
  have h2 : nsize 100 = 7 := by decide
  have h3 : fdivScaled 10 100 = (720575940379279360, 100, 56) := by
    simp only [fdivScaled, h1, h2]
    norm_num [htn, htn2]
  norm_num [fdiv, fdivPos, h3, roundNearEven, htn]

/-- C2 (amended): the four normalized coordinates of every retained
object are the round-to-nearest-even doubles of the ratios `xmin/width`,
`xmax/width`, `ymin/height`, `ymax/height` — equal to the exact ratio
only when that ratio is representable as a double — with no clamping:
for a source coordinate exceeding the image bound the rounded fraction is
at least 1 (greater than 1 unless rounding lands exactly on the bound)
and is kept in the output list as-is. -/
theorem C2_rounded_normalization (images : String → Option ImageFile)
    (data : AnnotationData) (lm : String → Int) (dir : String) (ign : Bool)
    (ex : TfExample)
    (h : dict_to_tf_example images data lm dir ign = Except.ok ex) :
    ex.xmins = (retainedObjects ign data.objectList).map
        (fun o => fdiv o.bndbox.xmin (data.size.width : ℚ)) ∧
    ex.xmaxs = (retainedObjects ign data.objectList).map
        (fun o => fdiv o.bndbox.xmax (data.size.width : ℚ)) ∧
    ex.ymins = (retainedObjects ign data.objectList).map
        (fun o => fdiv o.bndbox.ymin (data.size.height : ℚ)) ∧
    ex.ymaxs = (retainedObjects ign data.objectList).map
        (fun o => fdiv o.bndbox.ymax (data.size.height : ℚ)) ∧
    ∀ o ∈ retainedObjects ign data.objectList, 0 < data.size.width →
      (data.size.width : ℚ) < o.bndbox.xmin →
        1 ≤ fdiv o.bndbox.xmin (data.size.width : ℚ) ∧
        fdiv o.bndbox.xmin (data.size.width : ℚ) ∈ ex.xmins := by
  obtain ⟨img, himg, hdec, hex⟩ := dict_to_tf_example_ok images data lm dir ign
    ex h
  subst hex
  obtain ⟨h1, h2, h3, h4, h5, h6⟩ := processObjects_eq ign lm data.size.width
    data.size.height data.objectList
  refine ⟨h1, h3, h2, h4, ?_⟩
  intro o ho hw hlt
  have hwq : (0 : ℚ) < (data.size.width : ℚ) := by exact_mod_cast hw
  refine ⟨fdiv_ge_one o.bndbox.xmin (data.size.width : ℚ) hwq hlt, ?_⟩
  rw [h1]
  exact List.mem_map_of_mem _ ho

/-- C2 counterexample: the claim as stated ("the exact pixel-to-dimension
ratio") fails on the code: for `ymin = 10` and `height = 100` the program
appends the double `10.0 / 100`, which is `3602879701896397 / 2 ^ 55`,
not the exact ratio `10 / 100 = 1/10`. -/
theorem C2_counterexample :
    (dict_to_tf_example
        (fun p => if p = "imgc/q.jpg" then some ⟨"QB", true⟩ else none)
        ⟨"q.jpg", ⟨128, 100⟩,
          some [⟨"plate", "Left", 0, 0, ⟨32, 10, 64, 75⟩⟩]⟩
        (fun s => if s = "LicensePlate" then 1 else 0)
        "imgc").toOption.map TfExample.ymins
      = some [(3602879701896397 : ℚ) / 36028797018963968] ∧
    ((3602879701896397 : ℚ) / 36028797018963968) ≠ (10 : ℚ) / 100 ∧
    (dict_to_tf_example
        (fun p => if p = "imgc/q.jpg" then some ⟨"QB", true⟩ else none)
        ⟨"q.jpg", ⟨128, 100⟩,
          some [⟨"plate", "Left", 0, 0, ⟨32, 10, 64, 75⟩⟩]⟩
        (fun s => if s = "LicensePlate" then 1 else 0)
        "imgc").toOption.map TfExample.ymins
      ≠ some [(10 : ℚ) / 100] := by
  have hpath : ("imgc" ++ "/" ++ "q.jpg" : String) = "imgc/q.jpg" := by
    decide
  have hA : (dict_to_tf_example
      (fun p => if p = "imgc/q.jpg" then some ⟨"QB", true⟩ else none)
      ⟨"q.jpg", ⟨128, 100⟩,
        some [⟨"plate", "Left", 0, 0, ⟨32, 10, 64, 75⟩⟩]⟩
      (fun s => if s = "LicensePlate" then 1 else 0)
      "imgc").toOption.map TfExample.ymins
      = some [(3602879701896397 : ℚ) / 36028797018963968] := by
    norm_num [dict_to_tf_example, AnnotationData.objectList, processObjects,
      hpath, fdiv_eval_10_100, Except.toOption]
  have hB : ((3602879701896397 : ℚ) / 36028797018963968) ≠ (10 : ℚ) / 100 := by
    norm_num
  refine ⟨hA, hB, ?_⟩
  rw [hA]
  simp only [ne_eq, Option.some.injEq, List.cons.injEq, and_true]
  exact hB

/-- C2 witness: a 200x128 image with one object; `xmin/width = 50/200`
and the other ratios are exactly representable, and `xmax` (250) exceeds
the image width, so the kept fraction `5/4` lies above 1. -/
theorem C2_rounded_normalization_witness :
    dict_to_tf_example
      (fun p => if p = "img/photo.jpg" then some ⟨"JPGBYTES", true⟩ else none)
      ⟨"photo.jpg", ⟨200, 128⟩,
        some [⟨"plate", "Left", 0, 0, ⟨50, 16, 250, 96⟩⟩]⟩
      (fun s => if s = "LicensePlate" then 1 else 0) "img" false
      = Except.ok ⟨128, 200, "photo.jpg", "photo.jpg", "JPGBYTES", "jpeg",
          [1/4], [5/4], [1/8], [3/4], [], [1]⟩ ∧
    ((⟨128, 200, "photo.jpg", "photo.jpg", "JPGBYTES", "jpeg",
          [1/4], [5/4], [1/8], [3/4], [], [1]⟩ : TfExample).xmins
        = (retainedObjects false
            (AnnotationData.objectList ⟨"photo.jpg", ⟨200, 128⟩,
              some [⟨"plate", "Left", 0, 0, ⟨50, 16, 250, 96⟩⟩]⟩)).map
            (fun o => fdiv o.bndbox.xmin (((200 : Int) : ℚ))) ∧
      (⟨128, 200, "photo.jpg", "photo.jpg", "JPGBYTES", "jpeg",
          [1/4], [5/4], [1/8], [3/4], [], [1]⟩ : TfExample).xmaxs
        = (retainedObjects false
            (AnnotationData.objectList ⟨"photo.jpg", ⟨200, 128⟩,
              some [⟨"plate", "Left", 0, 0, ⟨50, 16, 250, 96⟩⟩]⟩)).map
            (fun o => fdiv o.bndbox.xmax (((200 : Int) : ℚ))) ∧
      (⟨128, 200, "photo.jpg", "photo.jpg", "JPGBYTES", "jpeg",
          [1/4], [5/4], [1/8], [3/4], [], [1]⟩ : TfExample).ymins
        = (retainedObjects false
            (AnnotationData.objectList ⟨"photo.jpg", ⟨200, 128⟩,
              some [⟨"plate", "Left", 0, 0, ⟨50, 16, 250, 96⟩⟩]⟩)).map
            (fun o => fdiv o.bndbox.ymin (((128 : Int) : ℚ))) ∧
      (⟨128, 200, "photo.jpg", "photo.jpg", "JPGBYTES", "jpeg",
          [1/4], [5/4], [1/8], [3/4], [], [1]⟩ : TfExample).ymaxs
        = (retainedObjects false
            (AnnotationData.objectList ⟨"photo.jpg", ⟨200, 128⟩,
              some [⟨"plate", "Left", 0, 0, ⟨50, 16, 250, 96⟩⟩]⟩)).map
            (fun o => fdiv o.bndbox.ymax (((128 : Int) : ℚ))) ∧
      ∀ o ∈ retainedObjects false
          (AnnotationData.objectList ⟨"photo.jpg", ⟨200, 128⟩,
            some [⟨"plate", "Left", 0, 0, ⟨50, 16, 250, 96⟩⟩]⟩),
        0 < (200 : Int) → (((200 : Int) : ℚ)) < o.bndbox.xmin →
          1 ≤ fdiv o.bndbox.xmin (((200 : Int) : ℚ)) ∧
          fdiv o.bndbox.xmin (((200 : Int) : ℚ)) ∈
            (⟨128, 200, "photo.jpg", "photo.jpg", "JPGBYTES", "jpeg",
              [1/4], [5/4], [1/8], [3/4], [], [1]⟩ : TfExample).xmins) :=
  ⟨by
    have hpath : ("img" ++ "/" ++ "photo.jpg" : String) = "img/photo.jpg" := by
      decide
    norm_num [dict_to_tf_example, AnnotationData.objectList, processObjects,
      hpath, fdiv_eval_50_200, fdiv_eval_250_200, fdiv_eval_16_128,
      fdiv_eval_96_128],
    C2_rounded_normalization
      (fun p => if p = "img/photo.jpg" then some ⟨"JPGBYTES", true⟩ else none)
      ⟨"photo.jpg", ⟨200, 128⟩,
        some [⟨"plate", "Left", 0, 0, ⟨50, 16, 250, 96⟩⟩]⟩
      (fun s => if s = "LicensePlate" then 1 else 0) "img" false
      ⟨128, 200, "photo.jpg", "photo.jpg", "JPGBYTES", "jpeg",
          [1/4], [5/4], [1/8], [3/4], [], [1]⟩
      (by
        have hpath : ("img" ++ "/" ++ "photo.jpg" : String) = "img/photo.jpg" := by
          decide
        norm_num [dict_to_tf_example, AnnotationData.objectList,
          processObjects, hpath, fdiv_eval_50_200, fdiv_eval_250_200,
          fdiv_eval_16_128, fdiv_eval_96_128])⟩


/-- C3: the four bounding-box lists and the class-label list all have
length equal to the number of retained object entries (zero when the
annotation has no object field), and the class-text list is always
empty. -/
theorem C3_list_length_invariant (images : String → Option ImageFile)
    (data : AnnotationData) (lm : String → Int) (dir : String) (ign : Bool)
    (ex : TfExample)
    (h : dict_to_tf_example images data lm dir ign = Except.ok ex) :
    ex.xmins.length = (retainedObjects ign data.objectList).length ∧
    ex.xmaxs.length = (retainedObjects ign data.objectList).length ∧
    ex.ymins.length = (retainedObjects ign data.objectList).length ∧
    ex.ymaxs.length = (retainedObjects ign data.objectList).length ∧
    ex.classes.length = (retainedObjects ign data.objectList).length ∧
    ex.classes_text = [] ∧
    (data.object = none → ex.xmins = [] ∧ ex.xmaxs = [] ∧ ex.ymins = [] ∧
      ex.ymaxs = [] ∧ ex.classes = []) := by
  obtain ⟨img, himg, hdec, hex⟩ := dict_to_tf_example_ok images data lm dir ign
    ex h
  obtain ⟨h1, h2, h3, h4, h5, h6⟩ := processObjects_eq ign lm data.size.width
    data.size.height data.objectList
  have ex1 : ex.xmins = (processObjects ign lm data.size.width data.size.height
      data.objectList).xmins := by rw [hex]
  have ex2 : ex.xmaxs = (processObjects ign lm data.size.width data.size.height
      data.objectList).xmaxs := by rw [hex]
  have ex3 : ex.ymins = (processObjects ign lm data.size.width data.size.height
      data.objectList).ymins := by rw [hex]
  have ex4 : ex.ymaxs = (processObjects ign lm data.size.width data.size.height
      data.objectList).ymaxs := by rw [hex]
  have ex5 : ex.classes = (processObjects ign lm data.size.width
      data.size.height data.objectList).classes := by rw [hex]
  have ex6 : ex.classes_text = (processObjects ign lm data.size.width
      data.size.height data.objectList).classes_text := by rw [hex]
  rw [ex1, ex2, ex3, ex4, ex5, ex6, h1, h2, h3, h4, h5, h6]
  refine ⟨by simp, by simp, by simp, by simp, by simp, rfl, ?_⟩
  intro hnone
  simp [AnnotationData.objectList, hnone, retainedObjects]

/-- C3 witness: an annotation with no object field converts to a record
with all five per-object lists empty. -/
theorem C3_list_length_invariant_witness :
    dict_to_tf_example
      (fun p => if p = "im3/empty.jpg" then some ⟨"BYTES3", true⟩ else none)
      ⟨"empty.jpg", ⟨640, 480⟩, none⟩
      (fun s => if s = "LicensePlate" then 7 else 0) "im3" false
      = Except.ok ⟨480, 640, "empty.jpg", "empty.jpg", "BYTES3", "jpeg",
          [], [], [], [], [], []⟩ ∧
    ((⟨480, 640, "empty.jpg", "empty.jpg", "BYTES3", "jpeg",
        [], [], [], [], [], []⟩ : TfExample).xmins.length
      = (retainedObjects false
          (AnnotationData.objectList ⟨"empty.jpg", ⟨640, 480⟩, none⟩)).length ∧
     (⟨480, 640, "empty.jpg", "empty.jpg", "BYTES3", "jpeg",
        [], [], [], [], [], []⟩ : TfExample).xmaxs.length
      = (retainedObjects false
          (AnnotationData.objectList ⟨"empty.jpg", ⟨640, 480⟩, none⟩)).length ∧
     (⟨480, 640, "empty.jpg", "empty.jpg", "BYTES3", "jpeg",
        [], [], [], [], [], []⟩ : TfExample).ymins.length
      = (retainedObjects false
          (AnnotationData.objectList ⟨"empty.jpg", ⟨640, 480⟩, none⟩)).length ∧
     (⟨480, 640, "empty.jpg", "empty.jpg", "BYTES3", "jpeg",
        [], [], [], [], [], []⟩ : TfExample).ymaxs.length
      = (retainedObjects false
          (AnnotationData.objectList ⟨"empty.jpg", ⟨640, 480⟩, none⟩)).length ∧
     (⟨480, 640, "empty.jpg", "empty.jpg", "BYTES3", "jpeg",
        [], [], [], [], [], []⟩ : TfExample).classes.length
      = (retainedObjects false
          (AnnotationData.objectList ⟨"empty.jpg", ⟨640, 480⟩, none⟩)).length ∧
     (⟨480, 640, "empty.jpg", "empty.jpg", "BYTES3", "jpeg",
        [], [], [], [], [], []⟩ : TfExample).classes_text = [] ∧
     ((⟨"empty.jpg", ⟨640, 480⟩, none⟩ : AnnotationData).object = none →
       (⟨480, 640, "empty.jpg", "empty.jpg", "BYTES3", "jpeg",
          [], [], [], [], [], []⟩ : TfExample).xmins = [] ∧
       (⟨480, 640, "empty.jpg", "empty.jpg", "BYTES3", "jpeg",
          [], [], [], [], [], []⟩ : TfExample).xmaxs = [] ∧
       (⟨480, 640, "empty.jpg", "empty.jpg", "BYTES3", "jpeg",
          [], [], [], [], [], []⟩ : TfExample).ymins = [] ∧
       (⟨480, 640, "empty.jpg", "empty.jpg", "BYTES3", "jpeg",
          [], [], [], [], [], []⟩ : TfExample).ymaxs = [] ∧
       (⟨480, 640, "empty.jpg", "empty.jpg", "BYTES3", "jpeg",
          [], [], [], [], [], []⟩ : TfExample).classes = [])) :=
  ⟨by decide,
    C3_list_length_invariant
      (fun p => if p = "im3/empty.jpg" then some ⟨"BYTES3", true⟩ else none)
      ⟨"empty.jpg", ⟨640, 480⟩, none⟩
      (fun s => if s = "LicensePlate" then 7 else 0) "im3" false
      ⟨480, 640, "empty.jpg", "empty.jpg", "BYTES3", "jpeg",
        [], [], [], [], [], []⟩ (by decide)⟩

/-- C10: in every record the Converter produces, the source-id field
equals the filename field (both are the XML filename), and the
image-format field is the constant string "jpeg". -/
theorem C10_source_id_and_format (images : String → Option ImageFile)
    (data : AnnotationData) (lm : String → Int) (dir : String) (ign : Bool)
    (ex : TfExample)
    (h : dict_to_tf_example images data lm dir ign = Except.ok ex) :
    ex.source_id = ex.filename ∧ ex.filename = data.filename ∧
    ex.format = "jpeg" := by
  obtain ⟨img, himg, hdec, hex⟩ := dict_to_tf_example_ok images data lm dir ign
    ex h
  subst hex
  exact ⟨rfl, rfl, rfl⟩

/-- C10 witness: a PNG file stored as `pic.png` still gets format
"jpeg", and source-id equals filename. -/
theorem C10_source_id_and_format_witness :
    dict_to_tf_example
      (fun p => if p = "im10/pic.png" then some ⟨"PNGBYTES", true⟩ else none)
      ⟨"pic.png", ⟨20, 30⟩, none⟩
      (fun s => if s = "LicensePlate" then 5 else 0) "im10" false
      = Except.ok ⟨30, 20, "pic.png", "pic.png", "PNGBYTES", "jpeg",
          [], [], [], [], [], []⟩ ∧
    ((⟨30, 20, "pic.png", "pic.png", "PNGBYTES", "jpeg",
        [], [], [], [], [], []⟩ : TfExample).source_id
      = (⟨30, 20, "pic.png", "pic.png", "PNGBYTES", "jpeg",
        [], [], [], [], [], []⟩ : TfExample).filename ∧
     (⟨30, 20, "pic.png", "pic.png", "PNGBYTES", "jpeg",
        [], [], [], [], [], []⟩ : TfExample).filename
      = (⟨"pic.png", ⟨20, 30⟩, none⟩ : AnnotationData).filename ∧
     (⟨30, 20, "pic.png", "pic.png", "PNGBYTES", "jpeg",
        [], [], [], [], [], []⟩ : TfExample).format = "jpeg") :=
  ⟨by decide,
    C10_source_id_and_format
      (fun p => if p = "im10/pic.png" then some ⟨"PNGBYTES", true⟩ else none)
      ⟨"pic.png", ⟨20, 30⟩, none⟩
      (fun s => if s = "LicensePlate" then 5 else 0) "im10" false
      ⟨30, 20, "pic.png", "pic.png", "PNGBYTES", "jpeg",
        [], [], [], [], [], []⟩ (by decide)⟩

/-- Replace the (never read) class-name field of an object entry. -/
def stripName (o : ObjectEntry) : ObjectEntry :=
  { o with name := "" }

/-- Replace every object class-name in an annotation. -/
def stripNames (data : AnnotationData) : AnnotationData :=
  { data with object := data.object.map (List.map stripName) }

theorem stripName_difficult (o : ObjectEntry) :
    (stripName o).difficult = o.difficult := rfl

theorem stripName_bndbox (o : ObjectEntry) :
    (stripName o).bndbox = o.bndbox := rfl

theorem stripName_pose (o : ObjectEntry) : (stripName o).pose = o.pose := rfl

theorem stripName_truncated (o : ObjectEntry) :
    (stripName o).truncated = o.truncated := rfl

theorem processObjects_stripName (ign : Bool) (lm : String → Int)
    (w h : Int) (objs : List ObjectEntry) :
    processObjects ign lm w h (objs.map stripName)
      = processObjects ign lm w h objs := by
  induction objs with
  | nil => rfl
  | cons obj rest ih =>
    simp only [List.map_cons, processObjects, stripName_difficult,
      stripName_bndbox, stripName_pose, stripName_truncated, ih]

theorem objectList_stripNames (data : AnnotationData) :
    (stripNames data).objectList = data.objectList.map stripName := by
  cases h : data.object <;>
    simp [stripNames, AnnotationData.objectList, h]

/-- C4: the class label of every retained object is the label map value
of the hardcoded key "LicensePlate" (hence all labels in a run are this
one id), and the objects own class-name fields never influence the
output: stripping all names leaves the produced record unchanged. -/
theorem C4_hardcoded_label (images : String → Option ImageFile)
    (data : AnnotationData) (lm : String → Int) (dir : String) (ign : Bool)
    (ex : TfExample)
    (h : dict_to_tf_example images data lm dir ign = Except.ok ex) :
    ex.classes = List.replicate (retainedObjects ign data.objectList).length
      (lm "LicensePlate") ∧
    dict_to_tf_example images (stripNames data) lm dir ign
      = dict_to_tf_example images data lm dir ign := by
  constructor
  · obtain ⟨img, himg, hdec, hex⟩ := dict_to_tf_example_ok images data lm dir
      ign ex h
    have ex5 : ex.classes = (processObjects ign lm data.size.width
        data.size.height data.objectList).classes := by rw [hex]
    obtain ⟨_, _, _, _, h5, _⟩ := processObjects_eq ign lm data.size.width
      data.size.height data.objectList
    rw [ex5, h5, List.map_const']
  · have h1 : (stripNames data).filename = data.filename := rfl
    have h2 : (stripNames data).size = data.size := rfl
    have h3 : processObjects ign lm data.size.width data.size.height
        (stripNames data).objectList
        = processObjects ign lm data.size.width data.size.height
          data.objectList := by
      rw [objectList_stripNames, processObjects_stripName]
    simp only [dict_to_tf_example, h1, h2, h3]

/-- C4 witness: one object whose own class name is "Car"; the emitted
label is still the label map entry for "LicensePlate" (here 3, while the
map sends every other name to 99). -/
theorem C4_hardcoded_label_witness :
    dict_to_tf_example
      (fun p => if p = "im4/car.jpg" then some ⟨"B4", true⟩ else none)
      ⟨"car.jpg", ⟨200, 128⟩,
        some [⟨"Car", "Frontal", 1, 0, ⟨50, 16, 250, 96⟩⟩]⟩
      (fun s => if s = "LicensePlate" then 3 else 99) "im4" false
      = Except.ok ⟨128, 200, "car.jpg", "car.jpg", "B4", "jpeg",
          [1/4], [5/4], [1/8], [3/4], [], [3]⟩ ∧
    ((⟨128, 200, "car.jpg", "car.jpg", "B4", "jpeg",
        [1/4], [5/4], [1/8], [3/4], [], [3]⟩ : TfExample).classes
      = List.replicate
          (retainedObjects false
            (AnnotationData.objectList ⟨"car.jpg", ⟨200, 128⟩,
              some [⟨"Car", "Frontal", 1, 0, ⟨50, 16, 250, 96⟩⟩]⟩)).length
          ((fun s => if s = "LicensePlate" then (3 : Int) else 99)
            "LicensePlate") ∧
     dict_to_tf_example
        (fun p => if p = "im4/car.jpg" then some ⟨"B4", true⟩ else none)
        (stripNames ⟨"car.jpg", ⟨200, 128⟩,
          some [⟨"Car", "Frontal", 1, 0, ⟨50, 16, 250, 96⟩⟩]⟩)
        (fun s => if s = "LicensePlate" then 3 else 99) "im4" false
      = dict_to_tf_example
          (fun p => if p = "im4/car.jpg" then some ⟨"B4", true⟩ else none)
          ⟨"car.jpg", ⟨200, 128⟩,
            some [⟨"Car", "Frontal", 1, 0, ⟨50, 16, 250, 96⟩⟩]⟩
          (fun s => if s = "LicensePlate" then 3 else 99) "im4" false) :=
  ⟨by
    have hpath : ("im4" ++ "/" ++ "car.jpg" : String) = "im4/car.jpg" := by
      decide
    norm_num [dict_to_tf_example, AnnotationData.objectList, processObjects,
      hpath, fdiv_eval_50_200, fdiv_eval_250_200, fdiv_eval_16_128,
      fdiv_eval_96_128],
    C4_hardcoded_label
      (fun p => if p = "im4/car.jpg" then some ⟨"B4", true⟩ else none)
      ⟨"car.jpg", ⟨200, 128⟩,
        some [⟨"Car", "Frontal", 1, 0, ⟨50, 16, 250, 96⟩⟩]⟩
      (fun s => if s = "LicensePlate" then 3 else 99) "im4" false
      ⟨128, 200, "car.jpg", "car.jpg", "B4", "jpeg",
        [1/4], [5/4], [1/8], [3/4], [], [3]⟩
      (by
        have hpath : ("im4" ++ "/" ++ "car.jpg" : String) = "im4/car.jpg" := by
          decide
        norm_num [dict_to_tf_example, AnnotationData.objectList,
          processObjects, hpath, fdiv_eval_50_200, fdiv_eval_250_200,
          fdiv_eval_16_128, fdiv_eval_96_128])⟩

/-- Erase the three metadata fields (`pose`, `truncated`, `difficult`)
of an object entry; two entries agree on everything else iff their
scrubbed forms are equal. -/
def scrubObject (o : ObjectEntry) : ObjectEntry :=
  { o with pose := "", truncated := 0, difficult := 0 }

/-- Erase `pose`, `truncated` and `difficult` of every object entry of
an annotation. -/
def scrubAnnotationData (a : AnnotationData) : AnnotationData :=
  { a with object := a.object.map (List.map scrubObject) }

theorem retainedObjects_false (objs : List ObjectEntry) :
    retainedObjects false objs = objs := by
  simp [retainedObjects]

theorem map_eq_of_scrub {β : Type} (g : ObjectEntry → β)
    (hg : ∀ o, g (scrubObject o) = g o) (l1 l2 : List ObjectEntry)
    (hm : l1.map scrubObject = l2.map scrubObject) :
    l1.map g = l2.map g := by
  have e1 : l1.map g = (l1.map scrubObject).map g := by
    rw [List.map_map]
    exact (List.map_congr_left (fun o _ => hg o)).symm
  have e2 : l2.map g = (l2.map scrubObject).map g := by
    rw [List.map_map]
    exact (List.map_congr_left (fun o _ => hg o)).symm
  rw [e1, e2, hm]

theorem objectList_scrub_congr (a1 a2 : AnnotationData)
    (hob : a1.object.map (List.map scrubObject)
      = a2.object.map (List.map scrubObject)) :
    a1.objectList.map scrubObject = a2.objectList.map scrubObject := by
  unfold AnnotationData.objectList
  cases h1 : a1.object <;> cases h2 : a2.object <;>
    rw [h1, h2] at hob <;> simp_all

/-- C9: with the default `ignore_difficult_instances = False`, the
produced record is independent of every objects `pose`, `truncated` and
`difficult` values: two annotations whose scrubbed forms coincide (i.e.
identical except possibly in those three fields) convert to identical
records, because the `truncated`, `poses` and `difficult_obj` lists are
built but never placed in the output feature dictionary. -/
theorem C9_metadata_independence (images : String → Option ImageFile)
    (lm : String → Int) (dir : String) (a1 a2 : AnnotationData)
    (h : scrubAnnotationData a1 = scrubAnnotationData a2) :
    dict_to_tf_example images a1 lm dir false
      = dict_to_tf_example images a2 lm dir false := by
  have hfn : a1.filename = a2.filename := by
    have hc := congrArg AnnotationData.filename h
    exact hc
  have hsz : a1.size = a2.size := by
    have hc := congrArg AnnotationData.size h
    exact hc
  have hob : a1.object.map (List.map scrubObject)
      = a2.object.map (List.map scrubObject) := by
    have hc := congrArg AnnotationData.object h
    exact hc
  have hm : a1.objectList.map scrubObject = a2.objectList.map scrubObject :=
    objectList_scrub_congr a1 a2 hob
  have hlen : a1.objectList.length = a2.objectList.length := by
    have := congrArg List.length hm
    simpa using this
  obtain ⟨p1x, p1y, p1X, p1Y, p1c, p1t⟩ := processObjects_eq false lm
    a1.size.width a1.size.height a1.objectList
  obtain ⟨p2x, p2y, p2X, p2Y, p2c, p2t⟩ := processObjects_eq false lm
    a2.size.width a2.size.height a2.objectList
  rw [retainedObjects_false] at p1x p1y p1X p1Y p1c
  rw [retainedObjects_false] at p2x p2y p2X p2Y p2c
  rw [← hsz] at p2x p2y p2X p2Y p2c p2t
  have hE1 : (processObjects false lm a1.size.width a1.size.height
      a1.objectList).xmins = (processObjects false lm a1.size.width
      a1.size.height a2.objectList).xmins := by
    rw [p1x, p2x]
    exact map_eq_of_scrub (fun o => fdiv o.bndbox.xmin ((a1.size.width : Int) : ℚ))
      (fun o => rfl) _ _ hm
  have hE2 : (processObjects false lm a1.size.width a1.size.height
      a1.objectList).ymins = (processObjects false lm a1.size.width
      a1.size.height a2.objectList).ymins := by
    rw [p1y, p2y]
    exact map_eq_of_scrub (fun o => fdiv o.bndbox.ymin ((a1.size.height : Int) : ℚ))
      (fun o => rfl) _ _ hm
  have hE3 : (processObjects false lm a1.size.width a1.size.height
      a1.objectList).xmaxs = (processObjects false lm a1.size.width
      a1.size.height a2.objectList).xmaxs := by
    rw [p1X, p2X]
    exact map_eq_of_scrub (fun o => fdiv o.bndbox.xmax ((a1.size.width : Int) : ℚ))
      (fun o => rfl) _ _ hm
  have hE4 : (processObjects false lm a1.size.width a1.size.height
      a1.objectList).ymaxs = (processObjects false lm a1.size.width
      a1.size.height a2.objectList).ymaxs := by
    rw [p1Y, p2Y]
    exact map_eq_of_scrub (fun o => fdiv o.bndbox.ymax ((a1.size.height : Int) : ℚ))
      (fun o => rfl) _ _ hm
  have hE5 : (processObjects false lm a1.size.width a1.size.height
      a1.objectList).classes = (processObjects false lm a1.size.width
      a1.size.height a2.objectList).classes := by
    rw [p1c, p2c, List.map_const', List.map_const', hlen]
  have hE6 : (processObjects false lm a1.size.width a1.size.height
      a1.objectList).classes_text = (processObjects false lm a1.size.width
      a1.size.height a2.objectList).classes_text := by
    rw [p1t, p2t]
  simp only [dict_to_tf_example, ← hfn, ← hsz]
  cases himg : images (dir ++ "/" ++ a1.filename) with
  | none => rfl
  | some img =>
    by_cases hdec : img.decodable = true
    · simp only [hdec, if_true, Except.ok.injEq, TfExample.mk.injEq]
      simp [hE1, hE2, hE3, hE4, hE5, hE6]
    · simp only [Bool.not_eq_true] at hdec
      simp only [hdec]
      rfl

/-- C9 witness: two annotations identical except in `pose`, `truncated`
and `difficult` convert to the same record. -/
theorem C9_metadata_independence_witness :
    scrubAnnotationData
        ⟨"s.jpg", ⟨60, 80⟩, some [⟨"plate", "Left", 0, 0, ⟨6, 8, 12, 16⟩⟩]⟩
      = scrubAnnotationData
        ⟨"s.jpg", ⟨60, 80⟩, some [⟨"plate", "Rear", 1, 1, ⟨6, 8, 12, 16⟩⟩]⟩ ∧
    dict_to_tf_example
        (fun p => if p = "im9/s.jpg" then some ⟨"B9", true⟩ else none)
        ⟨"s.jpg", ⟨60, 80⟩, some [⟨"plate", "Left", 0, 0, ⟨6, 8, 12, 16⟩⟩]⟩
        (fun s => if s = "LicensePlate" then 2 else 0) "im9" false
      = dict_to_tf_example
        (fun p => if p = "im9/s.jpg" then some ⟨"B9", true⟩ else none)
        ⟨"s.jpg", ⟨60, 80⟩, some [⟨"plate", "Rear", 1, 1, ⟨6, 8, 12, 16⟩⟩]⟩
        (fun s => if s = "LicensePlate" then 2 else 0) "im9" false :=
  ⟨by decide,
    C9_metadata_independence
      (fun p => if p = "im9/s.jpg" then some ⟨"B9", true⟩ else none)
      (fun s => if s = "LicensePlate" then 2 else 0) "im9"
      ⟨"s.jpg", ⟨60, 80⟩, some [⟨"plate", "Left", 0, 0, ⟨6, 8, 12, 16⟩⟩]⟩
      ⟨"s.jpg", ⟨60, 80⟩, some [⟨"plate", "Rear", 1, 1, ⟨6, 8, 12, 16⟩⟩]⟩
      (by decide)⟩

/-! ### Claims about the Sharded Writer -/

/-- C5: when the run succeeds, there are `num_shards` shard files and
shard `s` holds exactly the records of the examples at manifest positions
`idx` with `idx % num_shards = s` (those whose conversion succeeded), in
manifest order. -/
theorem C5_round_robin_shards (env : FsEnv) (num_shards : Nat)
    (lm : String → Int) (annotations_dir image_dir : String)
    (examples : List String) (final : List (List TfExample))
    (hN : 0 < num_shards)
    (hrun : create_tf_record env num_shards lm annotations_dir image_dir
      examples = Except.ok final) :
    final.length = num_shards ∧
    ∀ s, s < num_shards →
      final.getD s [] = examples.enum.filterMap fun p =>
        if p.1 % num_shards = s
        then recordOf env lm annotations_dir image_dir p.2 else none := by
  obtain ⟨h1, h2⟩ := writeLoop_ok_shards env num_shards lm annotations_dir
    image_dir examples (List.replicate num_shards []) 0 final (by simp) hrun
  refine ⟨h1, fun s hs => ?_⟩
  rw [h2 s hs]
  simp [List.getD, List.getElem?_replicate, hs, List.enum]

/-- C5 witness: ids `["a","b","c"]` with two shards; indices 0 and 2 land
in shard 0 and index 1 in shard 1, in manifest order. -/
theorem C5_round_robin_shards_witness :
    (0 : Nat) < 2 ∧
    create_tf_record
        ⟨fun p => if p = "ann/a.xml" ∨ p = "ann/b.xml" ∨ p = "ann/c.xml"
            then some ⟨"f.jpg", ⟨10, 10⟩, none⟩ else none,
         fun p => if p = "img/f.jpg" then some ⟨"FB", true⟩ else none⟩
        2 (fun s => if s = "LicensePlate" then 1 else 0) "ann" "img"
        ["a", "b", "c"]
      = Except.ok
        [[⟨10, 10, "f.jpg", "f.jpg", "FB", "jpeg", [], [], [], [], [], []⟩,
          ⟨10, 10, "f.jpg", "f.jpg", "FB", "jpeg", [], [], [], [], [], []⟩],
         [⟨10, 10, "f.jpg", "f.jpg", "FB", "jpeg", [], [], [], [], [], []⟩]] ∧
    (([[⟨10, 10, "f.jpg", "f.jpg", "FB", "jpeg", [], [], [], [], [], []⟩,
        ⟨10, 10, "f.jpg", "f.jpg", "FB", "jpeg", [], [], [], [], [], []⟩],
       [⟨10, 10, "f.jpg", "f.jpg", "FB", "jpeg", [], [], [], [], [], []⟩]] :
        List (List TfExample)).length = 2 ∧
      ∀ s, s < 2 →
        ([[⟨10, 10, "f.jpg", "f.jpg", "FB", "jpeg", [], [], [], [], [], []⟩,
           ⟨10, 10, "f.jpg", "f.jpg", "FB", "jpeg", [], [], [], [], [], []⟩],
          [⟨10, 10, "f.jpg", "f.jpg", "FB", "jpeg", [], [], [], [], [], []⟩]] :
            List (List TfExample)).getD s []
          = (["a", "b", "c"] : List String).enum.filterMap fun p =>
            if p.1 % 2 = s
            then recordOf
              ⟨fun p => if p = "ann/a.xml" ∨ p = "ann/b.xml" ∨ p = "ann/c.xml"
                  then some ⟨"f.jpg", ⟨10, 10⟩, none⟩ else none,
               fun p => if p = "img/f.jpg" then some ⟨"FB", true⟩ else none⟩
              (fun s => if s = "LicensePlate" then 1 else 0) "ann" "img" p.2
            else none) :=
  ⟨by decide,
    by decide,
    C5_round_robin_shards
      ⟨fun p => if p = "ann/a.xml" ∨ p = "ann/b.xml" ∨ p = "ann/c.xml"
          then some ⟨"f.jpg", ⟨10, 10⟩, none⟩ else none,
       fun p => if p = "img/f.jpg" then some ⟨"FB", true⟩ else none⟩
      2 (fun s => if s = "LicensePlate" then 1 else 0) "ann" "img"
      ["a", "b", "c"]
      [[⟨10, 10, "f.jpg", "f.jpg", "FB", "jpeg", [], [], [], [], [], []⟩,
        ⟨10, 10, "f.jpg", "f.jpg", "FB", "jpeg", [], [], [], [], [], []⟩],
       [⟨10, 10, "f.jpg", "f.jpg", "FB", "jpeg", [], [], [], [], [], []⟩]]
      (by decide) (by decide)⟩

/-- C6 (code bug): for an image that cannot be decoded, the Converter
fails with PIL's `UnidentifiedImageError` (an `OSError`), not with
`ValueError` as its own docstring claims, and since the Writer catches
only `ValueError`, the run aborts instead of skipping the example. -/
theorem C6_undecodable_image_aborts :
    dict_to_tf_example
        (fun p => if p = "img/bad.jpg" then some ⟨"NOTANIMAGE", false⟩
          else none)
        ⟨"bad.jpg", ⟨10, 10⟩, none⟩
        (fun s => if s = "LicensePlate" then 1 else 0) "img"
      = Except.error PyErr.unidentifiedImageError ∧
    PyErr.unidentifiedImageError ≠ PyErr.valueError ∧
    create_tf_record
        ⟨fun p => if p = "ann/bad.xml" then some ⟨"bad.jpg", ⟨10, 10⟩, none⟩
            else none,
         fun p => if p = "img/bad.jpg" then some ⟨"NOTANIMAGE", false⟩
            else none⟩
        2 (fun s => if s = "LicensePlate" then 1 else 0) "ann" "img" ["bad"]
      = Except.error PyErr.unidentifiedImageError :=
  ⟨by decide, by decide, by decide⟩

/-- C7: an example whose annotation XML is absent is skipped: its writer
step leaves every shard state unchanged and raises nothing, the example
yields no record, and in a completed run each shard still holds exactly
the records of the other examples keyed by their original manifest
indices. -/
theorem C7_missing_xml_skipped (env : FsEnv) (num_shards : Nat)
    (lm : String → Int) (annotations_dir image_dir : String)
    (examples : List String) (i : Nat) (hi : i < examples.length)
    (hmiss : env.xmlData
      (annotations_dir ++ "/" ++ examples.getD i "" ++ ".xml") = none) :
    (∀ shards idx, writeStep env num_shards lm annotations_dir image_dir
        shards idx (examples.getD i "") = Except.ok shards) ∧
    recordOf env lm annotations_dir image_dir (examples.getD i "") = none ∧
    ∀ final, create_tf_record env num_shards lm annotations_dir image_dir
        examples = Except.ok final →
      ∀ s, s < num_shards →
        final.getD s [] = examples.enum.filterMap fun p =>
          if p.1 % num_shards = s
          then recordOf env lm annotations_dir image_dir p.2 else none := by
  have hm : env.xmlData
      (annotations_dir ++ "/" ++ (examples[i]?.getD "") ++ ".xml") = none := by
    simpa [List.getD] using hmiss
  refine ⟨?_, ?_, ?_⟩
  · intro shards idx
    simp [writeStep, hm]
  · simp [recordOf, hm]
  · intro final hrun s hs
    obtain ⟨h1, h2⟩ := writeLoop_ok_shards env num_shards lm annotations_dir
      image_dir examples (List.replicate num_shards []) 0 final (by simp) hrun
    rw [h2 s hs]
    simp [List.getD, List.getElem?_replicate, hs, List.enum]

/-- C7 witness: ids `["a","b"]` with one shard, `ann/a.xml` absent: the
run completes and the only shard holds just the record of "b". -/
theorem C7_missing_xml_skipped_witness :
    (0 : Nat) < (["a", "b"] : List String).length ∧
    (FsEnv.xmlData
      ⟨fun p => if p = "ann/b.xml" then some ⟨"g.jpg", ⟨4, 4⟩, none⟩ else none,
       fun p => if p = "img/g.jpg" then some ⟨"GB", true⟩ else none⟩
      ("ann" ++ "/" ++ (["a", "b"] : List String).getD 0 "" ++ ".xml") = none) ∧
    ((∀ shards idx, writeStep
        ⟨fun p => if p = "ann/b.xml" then some ⟨"g.jpg", ⟨4, 4⟩, none⟩
            else none,
         fun p => if p = "img/g.jpg" then some ⟨"GB", true⟩ else none⟩
        1 (fun s => if s = "LicensePlate" then 1 else 0) "ann" "img"
        shards idx ((["a", "b"] : List String).getD 0 "")
        = Except.ok shards) ∧
      recordOf
        ⟨fun p => if p = "ann/b.xml" then some ⟨"g.jpg", ⟨4, 4⟩, none⟩
            else none,
         fun p => if p = "img/g.jpg" then some ⟨"GB", true⟩ else none⟩
        (fun s => if s = "LicensePlate" then 1 else 0) "ann" "img"
        ((["a", "b"] : List String).getD 0 "") = none ∧
      ∀ final, create_tf_record
          ⟨fun p => if p = "ann/b.xml" then some ⟨"g.jpg", ⟨4, 4⟩, none⟩
              else none,
           fun p => if p = "img/g.jpg" then some ⟨"GB", true⟩ else none⟩
          1 (fun s => if s = "LicensePlate" then 1 else 0) "ann" "img"
          ["a", "b"] = Except.ok final →
        ∀ s, s < 1 →
          final.getD s [] = (["a", "b"] : List String).enum.filterMap fun p =>
            if p.1 % 1 = s
            then recordOf
              ⟨fun p => if p = "ann/b.xml" then some ⟨"g.jpg", ⟨4, 4⟩, none⟩
                  else none,
               fun p => if p = "img/g.jpg" then some ⟨"GB", true⟩ else none⟩
              (fun s => if s = "LicensePlate" then 1 else 0) "ann" "img" p.2
            else none) :=
  ⟨by decide, by decide,
    C7_missing_xml_skipped
      ⟨fun p => if p = "ann/b.xml" then some ⟨"g.jpg", ⟨4, 4⟩, none⟩ else none,
       fun p => if p = "img/g.jpg" then some ⟨"GB", true⟩ else none⟩
      1 (fun s => if s = "LicensePlate" then 1 else 0) "ann" "img"
      ["a", "b"] 0 (by decide) (by decide)⟩
